import Mathlib

/-
Shallow embedding of the Soundify server (src/app.py): JSON-backed music
catalog with upload, metadata extraction, deletion and static file serving.

Modelling conventions:
* JSON values are `JVal`; Python dicts parsed from JSON are association
  lists (`JObj`) preserving insertion order, as Python dicts do.
* The filesystem is a list of absolute, resolved file paths.  `os.makedirs`
  has created the upload and covers directories at startup, there are no
  symlinks, and the working directory of the process is the constant `CWD`;
  under these assumptions `p.exists()` for a possibly-unnormalized path `p`
  agrees with membership of the resolved path in the file list, and
  `os.remove(p)` removes exactly the resolved path.
* Python exceptions that escape a handler are `Except.error`; code that
  catches an exception and continues is modelled in the success branch.
* Disk writes (json.dump and FileStorage.save) succeed
  unless a dedicated success flag in the environment says otherwise; the
  value written to the library file is recorded as a `JVal` (its bytes are
  `json.dump` of that value, so two writes differ in bytes iff the values
  differ).
* `uuid.uuid4()` is an arbitrary stream `fresh : Nat → String` of freshly
  generated identifiers, consumed left to right.
-/

/-- JSON value, as produced by `json.load` / consumed by `json.dump`. -/
inductive JVal where
  | null : JVal
  | jbool : Bool → JVal
  | jnum : Int → JVal
  | jstr : String → JVal
  | jarr : List JVal → JVal
  | jobj : List (String × JVal) → JVal
deriving Repr

/-- Python dict with string keys (insertion ordered), e.g. a parsed JSON object. -/
abbrev JObj := List (String × JVal)

mutual

/-- Python `==` on JSON values (structural equality). -/
def jeq : JVal → JVal → Bool
  | .null, .null => true
  | .jbool a, .jbool b => a == b
  | .jnum a, .jnum b => a == b
  | .jstr a, .jstr b => a == b
  | .jarr xs, .jarr ys => jeqList xs ys
  | .jobj xs, .jobj ys => jeqObj xs ys
  | _, _ => false

def jeqList : List JVal → List JVal → Bool
  | [], [] => true
  | x :: xs, y :: ys => jeq x y && jeqList xs ys
  | _, _ => false

def jeqObj : List (String × JVal) → List (String × JVal) → Bool
  | [], [] => true
  | (k1, v1) :: xs, (k2, v2) :: ys => k1 == k2 && jeq v1 v2 && jeqObj xs ys
  | _, _ => false

end

/-- Python `d.get(key)` / `key in d` lookup on a string-keyed dict. -/
def jget : JObj → String → Option JVal
  | [], _ => none
  | (k, v) :: rest, key => if k = key then some v else jget rest key

/-- Python `d[key] = val`: replace the value in place if the key exists, else append. -/
def jset : JObj → String → JVal → JObj
  | [], key, val => [(key, val)]
  | (k, v) :: rest, key, val =>
    if k = key then (k, val) :: rest else (k, v) :: jset rest key val

/-- Python `del d[key]` (no-op when the key is absent; a present key is unique in dicts). -/
def jdel : JObj → String → JObj
  | [], _ => []
  | (k, v) :: rest, key => if k = key then rest else (k, v) :: jdel rest key

/-- Python truthiness of a JSON value (`if x:`). -/
def JVal.truthy : JVal → Bool
  | .null => false
  | .jbool b => b
  | .jnum n => n != 0
  | .jstr s => s ≠ ""
  | .jarr xs => !xs.isEmpty
  | .jobj kvs => !kvs.isEmpty

mutual

/-- Python `repr` of a JSON value (string quoting is approximate; used only
inside `pyStr` for f-string interpolation of containers, which no claim
exercises on container values). -/
def pyRepr : JVal → String
  | .null => "None"
  | .jbool true => "True"
  | .jbool false => "False"
  | .jnum n => toString n
  | .jstr s => "\x27" ++ s ++ "\x27"
  | .jarr xs => "[" ++ ", ".intercalate (pyReprList xs) ++ "]"
  | .jobj kvs => "\x7b" ++ ", ".intercalate (pyReprObj kvs) ++ "\x7d"

def pyReprList : List JVal → List String
  | [] => []
  | v :: rest => pyRepr v :: pyReprList rest

def pyReprObj : List (String × JVal) → List String
  | [] => []
  | (k, v) :: rest => ("\x27" ++ k ++ "\x27: " ++ pyRepr v) :: pyReprObj rest

end

/-- Python `str()` of a JSON value (as interpolated by an f-string). -/
def pyStr : JVal → String
  | .jstr s => s
  | v => pyRepr v

-- Structural-recursion string helpers (the corresponding `String` library
-- functions use well-founded recursion and do not reduce in the kernel, so
-- the model defines its own kernel-computable versions over `List Char`).

/-- Python `s.startswith(pre)`. -/
def strStartsWith (s pre : String) : Bool :=
  pre.toList.isPrefixOf s.toList

/-- Helper of `splitOnChar`: accumulate the current piece (reversed). -/
def splitCharAux (c : Char) : List Char → List Char → List String
  | [], cur => [String.mk cur.reverse]
  | x :: xs, cur =>
    if x = c then String.mk cur.reverse :: splitCharAux c xs []
    else splitCharAux c xs (x :: cur)

/-- Python `s.split(c)` for a single-character separator (keeps empty
pieces; the empty string yields one empty piece). -/
def splitOnChar (c : Char) (s : String) : List String :=
  splitCharAux c s.toList []

/-- Python `s.lower()` on ASCII text. -/
def strToLower (s : String) : String :=
  String.mk (s.toList.map Char.toLower)

/-- Python `c in s` for a single character. -/
def strContainsChar (s : String) (c : Char) : Bool :=
  s.toList.contains c

/-- Python `s.strip()` (whitespace from both ends). -/
def strTrim (s : String) : String :=
  String.mk (((s.toList.dropWhile Char.isWhitespace).reverse.dropWhile
    Char.isWhitespace).reverse)

/-- Helper of `splitOnPred`: split at every character satisfying `p`. -/
def splitPredAux (p : Char → Bool) : List Char → List Char → List String
  | [], cur => [String.mk cur.reverse]
  | x :: xs, cur =>
    if p x then String.mk cur.reverse :: splitPredAux p xs []
    else splitPredAux p xs (x :: cur)

/-- Python `s.split()`-style splitting at characters satisfying `p`
(empty pieces are kept; callers filter them out as `str.split()` does). -/
def splitOnPred (p : Char → Bool) (s : String) : List String :=
  splitPredAux p s.toList []

/-- Python `s.lstrip('/')`: drop every leading slash. -/
def lstripSlashes (s : String) : String :=
  String.mk (s.toList.dropWhile (fun c => c = '/'))

/-- `pathlib.PurePosixPath(s).name`: the final path component ( `.` components
and empty components are dropped by the path parser; `..` is kept). -/
def pathName (s : String) : String :=
  (((splitOnChar '/' s).filter (fun c => c ≠ "" && c ≠ ".")).getLast?).getD ""

/-- Last index at which `c` occurs in `cs` (Python `s.rfind(c)`), if any. -/
def lastIdxOf (cs : List Char) (c : Char) : Option Nat :=
  match cs.reverse.findIdx? (fun x => x = c) with
  | some i => some (cs.length - 1 - i)
  | none => none

/-- `pathlib.PurePosixPath(s).stem`: the final component without its suffix;
a dot at position 0 or at the very end of the name does not start a suffix. -/
def pyStem (s : String) : String :=
  let n := pathName s
  let cs := n.toList
  match lastIdxOf cs '.' with
  | some i => if 0 < i ∧ i < cs.length - 1 then String.mk (cs.take i) else n
  | none => n

/-- `os.path.splitext(p)`: split off the extension at the last dot of the final
component, unless that dot is reached by the leading dots of the component. -/
def splitext (p : String) : String × String :=
  let cs := p.toList
  let sepIdx : Int := match lastIdxOf cs '/' with | some i => (i : Int) | none => -1
  match lastIdxOf cs '.' with
  | none => (p, "")
  | some di =>
    if (di : Int) > sepIdx then
      let start := (sepIdx + 1).toNat
      if (List.range' start (di - start)).all (fun i => cs.getD i ' ' = '.') then
        (p, "")
      else
        (String.mk (cs.take di), String.mk (cs.drop di))
    else (p, "")

/-- `pathlib.Path(a) / b`: the right operand wins when absolute. -/
def pyPathJoin (a b : String) : String :=
  if strStartsWith b "/" then b else a ++ "/" ++ b

/-- `str(Path(p).resolve())` with working directory `cwd`, in a symlink-free
tree: make the path absolute, then eliminate `.`, `..` and empty components
lexically (`..` at the root stays at the root). -/
def pyResolve (cwd p : String) : String :=
  let abs0 := if strStartsWith p "/" then p else cwd ++ "/" ++ p
  let comps := (splitOnChar '/' abs0).foldl
    (fun (acc : List String) c =>
      if c = "" || c = "." then acc
      else if c = ".." then acc.dropLast
      else acc ++ [c]) []
  "/" ++ "/".intercalate comps

/-- A resolved path `p` lies within directory `dir` (it is the directory itself
or a descendant of it) — the semantic containment property of the spec. -/
def withinDir (dir p : String) : Bool :=
  p = dir || strStartsWith p (dir ++ "/")

/-- Helper of `containsSubstr`: some suffix of `s` starts with `pat`. -/
def hasSubAux (pat : List Char) : List Char → Bool
  | [] => pat.isEmpty
  | x :: xs => pat.isPrefixOf (x :: xs) || hasSubAux pat xs

/-- Python `sub in s` substring test. -/
def containsSubstr (s pat : String) : Bool :=
  hasSubAux pat.toList s.toList

/-- Python `s.rsplit('.', 1)[1]`: everything after the last dot (callers
guarantee a dot is present). -/
def rsplitDot (filename : String) : String :=
  ((splitOnChar '.' filename).getLast?).getD ""

/-- Truthiness of an optional string (`if manual_artist:` where the value is
either `None` or a `str`). -/
def optStrTruthy : Option String → Bool
  | some s => s ≠ ""
  | none => false

-- Configuration constants of app.py.

def UPLOAD_FOLDER : String := "uploads"

def COVERS_FOLDER_NAME : String := "covers"

/-- `os.path.join(UPLOAD_FOLDER, COVERS_FOLDER_NAME)`. -/
def COVERS_FOLDER : String := UPLOAD_FOLDER ++ "/" ++ COVERS_FOLDER_NAME

def ALLOWED_EXTENSIONS : List String := ["mp3"]

def ALLOWED_COVER_EXTENSIONS : List String := ["png", "jpg", "jpeg", "gif"]

/-- Working directory of the server process (any absolute directory; the
relative configuration paths above are anchored at it). -/
def CWD : String := "/srv/app"

/-- `allowed_file` from app.py: the MP3 extension check. -/
def allowed_file (filename : String) : Bool :=
  strContainsChar filename '.' && ALLOWED_EXTENSIONS.contains (strToLower (rsplitDot filename))

/-- `allowed_cover_file` from app.py: the cover extension check. -/
def allowed_cover_file (filename : String) : Bool :=
  strContainsChar filename '.' && ALLOWED_COVER_EXTENSIONS.contains (strToLower (rsplitDot filename))

-- ====================================================================
-- Catalog Store (app.py lines 51-120): load_library / save_library
-- ====================================================================

/-- State of the persisted library file as seen by `load_library`:
absent, unreadable (an `IOError` on open/read or a `json.JSONDecodeError`
on parse), or holding bytes that parse to the JSON value `v`. -/
inductive FileState where
  | absent : FileState
  | unreadable : FileState
  | content : JVal → FileState
deriving Repr

/-- Result of `save_library`: the JSON value written to the file (none when
nothing was written) and the boolean the function returns. -/
structure SaveOut where
  written : Option JVal
  ret : Bool
deriving Repr

/-- Key coercion performed by `json.dump` on non-string dict keys: scalar
keys become strings, container keys raise a `TypeError`. -/
def jsonKey : JVal → Option String
  | .jstr s => some s
  | .jnum n => some (toString n)
  | .jbool true => some "true"
  | .jbool false => some "false"
  | .null => some "null"
  | .jarr _ => none
  | .jobj _ => none

/-- Lookup in a Python dict whose keys are arbitrary JSON values. -/
def jgetV : List (JVal × JVal) → JVal → Option JVal
  | [], _ => none
  | (k, v) :: rest, key => if jeq k key then some v else jgetV rest key

/-- Assignment `d[key] = val` in a Python dict with arbitrary JSON keys:
replace in place if an equal key exists, else append. -/
def jsetV : List (JVal × JVal) → JVal → JVal → List (JVal × JVal)
  | [], key, val => [(key, val)]
  | (k, v) :: rest, key, val =>
    if jeq k key then (k, val) :: rest else (k, v) :: jsetV rest key val

/-- The `corrected_songs` loop of `save_library` (app.py lines 102-107):
re-key every dict-valued record by its own `id` field, drop the rest. -/
def buildCorrected : List (String × JVal) → List (JVal × JVal) → List (JVal × JVal)
  | [], acc => acc
  | (_, sd) :: rest, acc =>
    match sd with
    | .jobj so =>
      match jget so "id" with
      | some idv => buildCorrected rest (jsetV acc idv sd)
      | none => buildCorrected rest acc
    | _ => buildCorrected rest acc

/-- Serialization of the corrected songs dict by `json.dump`: coerce every
key to a string, or fail (`TypeError`) on the first container key. -/
def keysToJson : List (JVal × JVal) → Option (List (String × JVal))
  | [] => some []
  | (k, v) :: rest =>
    match jsonKey k with
    | some s => (keysToJson rest).map (fun r => (s, v) :: r)
    | none => none

/-- `save_library` (app.py lines 95-120).  Returns the value written and the
boolean result; `Except.error` models exceptions that escape the function
(only `IOError` and `TypeError` are caught by it).  Disk writes themselves
are assumed to succeed (the caught-`IOError` path is not exercised by any
claim); a `TypeError` raised by `json.dump` on a container-valued key is
caught and reported as a `false` return with nothing written. -/
def save_library (library_data : JVal) : Except String SaveOut :=
  match library_data with
  | .jobj o0 =>
    -- if "songs" not in library_data or not isinstance(library_data["songs"], dict):
    --     library_data = {"songs": library_data.get("songs", {})}
    let o : JObj :=
      match jget o0 "songs" with
      | some (.jobj _) => o0
      | some v => [("songs", v)]
      | none => [("songs", .jobj [])]
    match jget o "songs" with
    | some (.jobj songs) =>
      let corrected := buildCorrected songs []
      match keysToJson corrected with
      | some pairs => .ok ⟨some (.jobj (jset o "songs" (.jobj pairs))), true⟩
      | none => .ok ⟨none, false⟩
    | _ =>
      -- library_data.get("songs", {}).items() on a non-dict value
      .error "AttributeError: items on non-dict songs value"
  | .null | .jnum _ | .jbool _ =>
    -- `"songs" not in <scalar>` raises TypeError, caught at line 117: returns False
    .ok ⟨none, false⟩
  | .jarr xs =>
    if xs.any (fun x => jeq x (.jstr "songs")) then
      -- `library_data["songs"]` on a list raises TypeError, caught: returns False
      .ok ⟨none, false⟩
    else
      -- `library_data.get(...)` on a list raises AttributeError, uncaught
      .error "AttributeError: get on list"
  | .jstr s =>
    if containsSubstr s "songs" then
      -- `library_data["songs"]` on a str raises TypeError, caught: returns False
      .ok ⟨none, false⟩
    else
      -- `library_data.get(...)` on a str raises AttributeError, uncaught
      .error "AttributeError: get on str"

/-- Per-record normalization performed by the loop of `load_library`
(app.py lines 61-80) on entry `(key, song_data)` with fresh-id counter `n`.
Returns the key `song_id` under which the record is stored, the updated
record, whether anything changed (`needs_save` contribution), and the new
counter.  `Except.error` models the uncaught `AttributeError` raised by
`.get` on a non-dict record or `.startswith` on a non-string `coverSrc`. -/
def normalizeSong (fresh : Nat → String) (n : Nat) (key : String) (sd : JVal) :
    Except String (String × JObj × Bool × Nat) :=
  match sd with
  | .jobj o =>
    -- song_id = song_data.get("id", key)
    let idv : JVal := (jget o "id").getD (.jstr key)
    -- if not isinstance(song_id, str) or len(song_id) < 10: song_id = str(uuid.uuid4())
    let step1 : String × Bool × Nat :=
      match idv with
      | .jstr s => if s.length < 10 then (fresh n, true, n + 1) else (s, false, n)
      | _ => (fresh n, true, n + 1)
    let song_id := step1.1
    let n1 := step1.2.2
    -- if "id" not in song_data or song_data["id"] != song_id: assign song_id
    -- (song_id is a str here, so equality with a non-str id value is False)
    let idOk : Bool :=
      match jget o "id" with
      | some (.jstr s) => s = song_id
      | _ => false
    let step2 : JObj × Bool :=
      if idOk then (o, false)
      else (jset o "id" (.jstr song_id), true)
    let o2 := step2.1
    -- if "audioSrc" not in song_data and "filename" in song_data:
    --     derive audioSrc from the filename via the f-string
    let step3 : JObj × Bool :=
      match jget o2 "audioSrc", jget o2 "filename" with
      | none, some fv => (jset o2 "audioSrc" (.jstr ("/uploads/" ++ pyStr fv)), true)
      | _, _ => (o2, false)
    let o3 := step3.1
    let needs := step1.2.1 || step2.2 || step3.2
    -- if "coverSrc" in song_data and song_data["coverSrc"] is truthy
    --    and does not start with a slash: rewrite it
    match jget o3 "coverSrc" with
    | some cv =>
      if cv.truthy then
        match cv with
        | .jstr s =>
          if strStartsWith s "/" then .ok (song_id, o3, needs, n1)
          else
            .ok (song_id,
                 jset o3 "coverSrc" (.jstr ("/" ++ COVERS_FOLDER_NAME ++ "/" ++ pathName s)),
                 true, n1)
        | _ => .error "AttributeError: startswith on non-str coverSrc"
      else .ok (song_id, o3, needs, n1)
    | none => .ok (song_id, o3, needs, n1)
  | _ => .error "AttributeError: song entry is not a dict"

/-- The `updated_songs` loop of `load_library` (app.py lines 60-80): fold
`normalizeSong` over the entries, inserting each record under its
(possibly re-generated) id. -/
def processSongs (fresh : Nat → String) :
    List (String × JVal) → JObj → Bool → Nat → Except String (JObj × Bool)
  | [], acc, needs, _ => .ok (acc, needs)
  | (key, sd) :: rest, acc, needs, n => do
    let r ← normalizeSong fresh n key sd
    processSongs fresh rest (jset acc r.1 (.jobj r.2.1)) (needs || r.2.2.1) r.2.2.2

/-- Result of `load_library`: the returned library dict, and the value the
normalization pass re-saved to the file (none when no save happened). -/
structure LoadResult where
  data : JVal
  saved : Option JVal
deriving Repr

/-- `load_library` (app.py lines 51-92).  An absent or unreadable file (or
one whose bytes fail to parse as JSON) degrades to the empty library; a file
whose JSON value is not an object raises an uncaught `TypeError` (the
`except` clause catches only `json.JSONDecodeError` and `IOError`), and
non-dict song records raise an uncaught `AttributeError` in the loop. -/
def load_library (file : FileState) (fresh : Nat → String) : Except String LoadResult :=
  match file with
  | .absent => .ok ⟨.jobj [("songs", .jobj [])], none⟩
  | .unreadable => .ok ⟨.jobj [("songs", .jobj [])], none⟩
  | .content v =>
    match v with
    | .jobj o0 =>
      -- if "songs" not in data or not isinstance(data["songs"], dict): data["songs"] = {}
      let o : JObj :=
        match jget o0 "songs" with
        | some (.jobj _) => o0
        | _ => jset o0 "songs" (.jobj [])
      let songs : JObj :=
        match jget o "songs" with
        | some (.jobj s) => s
        | _ => []
      do
        let r ← processSongs fresh songs [] false 0
        let data : JObj := jset o "songs" (.jobj r.1)
        if r.2 then
          -- "Updating library file with standardized IDs/paths..."; save_library(data)
          match save_library (.jobj data) with
          | .ok so => .ok ⟨.jobj data, so.written⟩
          | .error e => .error e
        else
          .ok ⟨.jobj data, none⟩
    | _ =>
      -- Any non-object JSON value raises an uncaught TypeError:
      -- scalars at `"songs" not in data`; lists and strings at
      -- `data["songs"]` (read or assignment).
      .error "TypeError: non-object library content"

-- ====================================================================
-- Metadata Resolver (app.py lines 123-214): get_song_metadata
-- ====================================================================

/-- The song record built by `get_song_metadata` (the `metadata` dict). -/
structure Metadata where
  id : String
  filename : String
  title : String
  artist : String
  album : String
  genre : String
  audioSrc : String
  coverSrc : Option String
deriving Repr

/-- The four text fields `EasyID3.get` can return (first list element of
each frame), `none` when the frame is absent. -/
structure TagScalars where
  title : Option String
  artist : Option String
  album : Option String
  genre : Option String
deriving Repr

/-- Outcome of constructing/reading `EasyID3(server_mp3_path)`:
tags read fine, `ID3NoHeaderError` was raised, or some other exception. -/
inductive EasyRead where
  | ok : TagScalars → EasyRead
  | noHeader : EasyRead
  | err : EasyRead
deriving Repr

/-- One entry of `audio_full.tags`; `mime` and `img` are the `APIC` frame
fields and are meaningful only when `name` starts with `APIC`. -/
structure ID3Frame where
  name : String
  mime : String
  img : String
deriving Repr

/-- Outcome of `MP3(server_mp3_path, ID3=ID3)` and its `.tags`:
the constructor (or tag access) raised, the tags were falsy, or the tag
entries in iteration order. -/
inductive FullRead where
  | err : FullRead
  | noTags : FullRead
  | tags : List ID3Frame → FullRead
deriving Repr

/-- External-capability environment of one `get_song_metadata` call. -/
structure TagEnv where
  mutagenAvailable : Bool
  /-- `server_mp3_path.is_file()` -/
  fileIsFile : Bool
  easy : EasyRead
  full : FullRead
  /-- the `uploaded_cover_file.save(...)` call succeeds -/
  coverSaveOk : Bool
  /-- the open/write of the embedded art file succeeds -/
  embedWriteOk : Bool
deriving Repr

/-- `ext = mime_type.split('/')[-1].lower(); if ext == 'jpeg': ext = 'jpg'`
(app.py lines 183-184). -/
def normExt (mime : String) : String :=
  let e := strToLower (((splitOnChar '/' mime).getLast?).getD "")
  if e = "jpeg" then "jpg" else e

/-- The embedded-picture loop of `get_song_metadata` (app.py lines 178-201):
walk the tag entries; non-`APIC` entries are skipped; an `APIC` entry with a
disallowed normalized extension is skipped (the loop continues); the first
`APIC` entry with an allowed extension is written as `<song-id>.<ext>` and
the loop breaks — whether or not the write succeeds.  Returns the
`coverSrc` that was set (if any) and the file paths written. -/
def scanEmbedded : List ID3Frame → String → Bool → Option String × List String
  | [], _, _ => (none, [])
  | f :: rest, song_id, writeOk =>
    if strStartsWith f.name "APIC" then
      let ext := normExt f.mime
      if ALLOWED_COVER_EXTENSIONS.contains ext then
        -- write <song-id>.<ext>, set coverSrc, break (break also on IOError)
        if writeOk then
          (some ("/" ++ COVERS_FOLDER_NAME ++ "/" ++ (song_id ++ "." ++ ext)),
           [pyResolve CWD (COVERS_FOLDER ++ "/" ++ (song_id ++ "." ++ ext))])
        else (none, [])
      else
        -- "Skipping embedded cover with unsupported mime type": no break here
        scanEmbedded rest song_id writeOk
    else scanEmbedded rest song_id writeOk

/-- The uploaded-cover block of `get_song_metadata` (app.py lines 145-156):
when a cover file with a non-empty, allowed filename was uploaded, save it
as `<song-id>.<ext>` and set `coverSrc`; a failed save is caught and leaves
everything unchanged.  Returns (metadata, cover_saved, paths written). -/
def uploadedCoverStep (song_id : String) (cover : Option String) (coverSaveOk : Bool)
    (md : Metadata) : Metadata × Bool × List String :=
  let cond :=
    match cover with
    | some cfn => cfn ≠ "" && allowed_cover_file cfn
    | none => false
  if cond then
    match cover with
    | some cfn =>
      let cover_ext := strToLower (rsplitDot cfn)
      let cover_filename := song_id ++ "." ++ cover_ext
      if coverSaveOk then
        ({ md with coverSrc := some ("/" ++ COVERS_FOLDER_NAME ++ "/" ++ cover_filename) },
         true, [pyResolve CWD (COVERS_FOLDER ++ "/" ++ cover_filename)])
      else (md, false, [])
    | none => (md, false, [])
  else (md, false, [])

/-- The `EasyID3` block of `get_song_metadata` (app.py lines 159-172):
on success read title/artist/album/genre (manual artist wins over the tag);
on `ID3NoHeaderError` or any other exception, only apply the manual artist
if one was given. -/
def easyTagStep (manual : Option String) (easy : EasyRead) (md : Metadata) : Metadata :=
  match easy with
  | .ok t =>
    { md with
      title := t.title.getD md.title,
      artist := if optStrTruthy manual then manual.getD "" else t.artist.getD md.artist,
      album := t.album.getD md.album,
      genre := t.genre.getD md.genre }
  | .noHeader => if optStrTruthy manual then { md with artist := manual.getD "" } else md
  | .err => if optStrTruthy manual then { md with artist := manual.getD "" } else md

/-- The final artist pass of `get_song_metadata` (app.py lines 210-211). -/
def finalArtistStep (manual : Option String) (md : Metadata) : Metadata :=
  if md.artist = "" || md.artist = "Unknown Artist" then
    { md with artist := if optStrTruthy manual then manual.getD "" else "Unknown Artist" }
  else md

/-- `get_song_metadata` (app.py lines 123-214).  Inputs: the stored audio
filename, the generated song id, the optional manual artist
(`None` or a string), the uploaded cover filename (`None` when no
`coverFile` part was sent; `FileStorage` truthiness is `bool(filename)`),
and the capability environment.  Returns the record and the cover-file
paths written. -/
def get_song_metadata (mp3_filepath_str song_id : String) (manual_artist : Option String)
    (uploaded_cover : Option String) (env : TagEnv) : Metadata × List String :=
  let md0 : Metadata :=
    { id := song_id
      filename := mp3_filepath_str
      title := pyStem mp3_filepath_str
      artist := "Unknown Artist"
      album := "Unknown Album"
      genre := "Unknown Genre"
      audioSrc := "/uploads/" ++ mp3_filepath_str
      coverSrc := none }
  let s1 := uploadedCoverStep song_id uploaded_cover env.coverSaveOk md0
  let md1 := s1.1
  let cover_saved := s1.2.1
  let ws1 := s1.2.2
  let s2 : Metadata × List String :=
    if env.mutagenAvailable && env.fileIsFile then
      let mdE := easyTagStep manual_artist env.easy md1
      -- if not cover_saved: inspect embedded pictures
      if cover_saved then (mdE, [])
      else
        match env.full with
        | .tags frames =>
          let r := scanEmbedded frames song_id env.embedWriteOk
          (match r.1 with
           | some c => { mdE with coverSrc := some c }
           | none => mdE, r.2)
        | _ => (mdE, [])
    else if env.mutagenAvailable = false then
      ({ md1 with
         artist := if optStrTruthy manual_artist then manual_artist.getD ""
                   else "N/A (mutagen not installed)" }, [])
    else
      ({ md1 with
         artist := if optStrTruthy manual_artist then manual_artist.getD ""
                   else "N/A (File missing?)" }, [])
  (finalArtistStep manual_artist s2.1, ws1 ++ s2.2)

-- ====================================================================
-- Deletion Handler (app.py lines 293-370): delete_song
-- ====================================================================

/-- The audio-file block of `delete_song` (app.py lines 309-326) acting on
`song_info.get("filename")`.  Returns the `audio_file_deleted` flag and the
filesystem after the block; `Except.error` is the uncaught `TypeError` of
`Path / <non-str>`.  `os.remove` on an existing file succeeds in this
model. -/
def deleteAudioSlot (fs : List String) (filenameVal : Option JVal) :
    Except String (Bool × List String) :=
  match filenameVal with
  | some fv =>
    if fv.truthy then
      match fv with
      | .jstr fn =>
        let resolved := pyResolve CWD (pyPathJoin UPLOAD_FOLDER fn)
        if resolved ∈ fs then
          -- str(audio_path.resolve()).startswith(str(Path(UPLOAD_FOLDER).resolve()))
          if strStartsWith resolved (pyResolve CWD UPLOAD_FOLDER) then
            .ok (true, fs.erase resolved)
          else
            -- "Security risk: ... seems outside upload folder."
            .ok (false, fs)
        else
          -- not found: "assuming deleted or issue"
          .ok (true, fs)
      | _ => .error "TypeError: Path join with non-str filename"
    else .ok (true, fs)
  | none => .ok (true, fs)

/-- The cover-file block of `delete_song` (app.py lines 329-351) acting on
`song_info.get("coverSrc")`.  Returns the `cover_file_deleted` flag and the
filesystem after the block; `Except.error` is the uncaught `AttributeError`
of `.lstrip` on a truthy non-string value. -/
def deleteCoverSlot (fs : List String) (coverVal : Option JVal) :
    Except String (Bool × List String) :=
  match coverVal with
  | some cv =>
    if cv.truthy then
      match cv with
      | .jstr cs =>
        let rel := lstripSlashes cs
        if strStartsWith rel (COVERS_FOLDER_NAME ++ "/") then
          let resolved := pyResolve CWD (pyPathJoin UPLOAD_FOLDER rel)
          if resolved ∈ fs then
            -- str(cover_path_abs.resolve()).startswith(str(Path(COVERS_FOLDER).resolve()))
            if strStartsWith resolved (pyResolve CWD COVERS_FOLDER) then
              .ok (true, fs.erase resolved)
            else
              -- "Security risk: ... seems outside covers folder."
              .ok (false, fs)
          else
            -- not found: "assuming deleted or issue"
            .ok (true, fs)
        else
          -- "Invalid coverSrc format or path": treated as trivially removed
          .ok (true, fs)
      | _ => .error "AttributeError: lstrip on non-str coverSrc"
    else .ok (true, fs)
  | none => .ok (true, fs)

/-- Result of one `DELETE /api/songs/<id>` request: HTTP status, the
sequence of values written to the library file (by the load-time
normalization pass and/or the final save), and the filesystem after. -/
structure DeleteOut where
  status : Nat
  libWrites : List JVal
  fs : List String
deriving Repr

/-- `delete_song` (app.py lines 293-370).  The final `save_library` is
assumed to hit no disk error (its `False`-return branch yields the 500
"Files deleted, but failed to update library metadata" response). -/
def delete_song (file : FileState) (fresh : Nat → String) (fs : List String)
    (song_id : String) : Except String DeleteOut := do
  let lr ← load_library file fresh
  let songs : JObj :=
    match lr.data with
    | .jobj o => match jget o "songs" with | some (.jobj s) => s | _ => []
    | _ => []
  match jget songs song_id with
  | none =>
    -- "Song not found", 404
    .ok ⟨404, lr.saved.toList, fs⟩
  | some song_info =>
    match song_info with
    | .jobj si => do
      let ra ← deleteAudioSlot fs (jget si "filename")
      let rc ← deleteCoverSlot ra.2 (jget si "coverSrc")
      if ra.1 && rc.1 then
        let data2 : JVal :=
          match lr.data with
          | .jobj o => .jobj (jset o "songs" (.jobj (jdel songs song_id)))
          | v => v
        match save_library data2 with
        | .ok so =>
          if so.ret then .ok ⟨200, lr.saved.toList ++ so.written.toList, rc.2⟩
          else .ok ⟨500, lr.saved.toList ++ so.written.toList, rc.2⟩
        | .error e => .error e
      else
        -- "Failed to delete associated files. Library not modified."
        .ok ⟨500, lr.saved.toList, rc.2⟩
    | _ => .error "AttributeError: get on non-dict song_info"

-- ====================================================================
-- Upload Handler (app.py lines 220-282): upload_file
-- ====================================================================

/-- Python `s.strip(chars)` for a set of characters. -/
def stripChars (s : String) (cset : List Char) : String :=
  String.mk (((s.toList.dropWhile (fun c => cset.contains c)).reverse.dropWhile
    (fun c => cset.contains c)).reverse)

/-- Modelled from werkzeug `secure_filename` restricted to ASCII input
(an external collaborator of the repository; its unicode NFKD
normalization step leaves ASCII unchanged and is not modelled, non-ASCII
characters are simply dropped like the `encode("ascii","ignore")` step):
replace the path separator by a space, join the whitespace-split words
with underscores, delete every character outside `[A-Za-z0-9_.-]`, and
strip leading/trailing dots and underscores. -/
def secure_filename (filename : String) : String :=
  let f := String.mk (filename.toList.filter (fun c => c.toNat < 128))
  let f := String.mk (f.toList.map (fun c => if c = '/' then ' ' else c))
  let f := "_".intercalate ((splitOnPred Char.isWhitespace f).filter (fun w => w ≠ ""))
  let f := String.mk (f.toList.filter (fun c => c.isAlphanum || c = '_' || c = '.' || c = '-'))
  stripChars f ['.', '_']

/-- The filename-collision loop of `upload_file` (app.py lines 239-245):
while a file of that name exists, try `<base>_<counter><ext>`.  The loop
terminates on a finite filesystem; `fuel` (instantiated to more names than
there are files) makes the recursion structural. -/
def findFreeName (fs : List String) (base ext0 : String) : String → Nat → Nat → String
  | filename, _, 0 => filename
  | filename, counter, fuel + 1 =>
    if pyResolve CWD (pyPathJoin UPLOAD_FOLDER filename) ∈ fs then
      findFreeName fs base ext0 (base ++ "_" ++ toString counter ++ ext0) (counter + 1) fuel
    else filename

/-- One multipart `POST /upload` request: the `file` part filename (none
when the part is missing), the `artistName` form field, and the
`coverFile` part filename (none when the part is missing; a present part
with an empty filename is the browser sending no file). -/
structure UploadReq where
  filePart : Option String
  artistName : String
  coverPart : Option String
deriving Repr

/-- Result of one `POST /upload` request: HTTP status, the filesystem
after, and the values written to the library file. -/
structure UploadOut where
  status : Nat
  fs : List String
  libWrites : List JVal
deriving Repr

/-- The `metadata` dict as stored into the library (JSON value; an absent
cover is `None`/`null`). -/
def mdToJVal (m : Metadata) : JVal :=
  .jobj [("id", .jstr m.id), ("filename", .jstr m.filename), ("title", .jstr m.title),
         ("artist", .jstr m.artist), ("album", .jstr m.album), ("genre", .jstr m.genre),
         ("audioSrc", .jstr m.audioSrc),
         ("coverSrc", match m.coverSrc with | some c => .jstr c | none => .null)]

/-- The cover-cleanup part of the `upload_file` exception handler
(app.py lines 271-280): remove the written cover file if `coverSrc` is
truthy, rooted under the covers folder, and the file exists. -/
def uploadCoverCleanup (fs : List String) (coverSrc : Option String) : List String :=
  match coverSrc with
  | some c =>
    if c ≠ "" then
      let rel := lstripSlashes c
      if strStartsWith rel (COVERS_FOLDER_NAME ++ "/") then
        let abs0 := pyResolve CWD (pyPathJoin UPLOAD_FOLDER rel)
        if abs0 ∈ fs then fs.erase abs0 else fs
      else fs
    else fs
  | none => fs

/-- `upload_file` (app.py lines 220-282).  `newId` is the `uuid.uuid4()`
generated for the uploaded song; `fresh` feeds the `load_library`
normalization pass; `mp3SaveOk` is whether `mp3_file.save(save_path)`
succeeds (a failed save writes nothing).  The final `save_library` hits no
disk error in this model, so the `raise IOError` branch (line 260) is not
taken. -/
def upload_file (req : UploadReq) (file : FileState) (fresh : Nat → String)
    (newId : String) (fs : List String) (env : TagEnv) (mp3SaveOk : Bool) : UploadOut :=
  match req.filePart with
  | none => ⟨400, fs, []⟩  -- "No MP3 file part"
  | some mp3name =>
    let manual_artist_name := strTrim req.artistName
    if mp3name = "" then ⟨400, fs, []⟩  -- "No selected MP3 file"
    else if !allowed_file mp3name then ⟨400, fs, []⟩  -- "MP3 file type not allowed"
    else if (match req.coverPart with
             | some cfn => cfn ≠ "" && !allowed_cover_file cfn
             | none => false) then ⟨400, fs, []⟩  -- "Cover file type not allowed"
    else
      let fname0 := secure_filename mp3name
      let be := splitext fname0
      let filename := findFreeName fs be.1 be.2 fname0 1 (fs.length + 1)
      let save_path := pyResolve CWD (pyPathJoin UPLOAD_FOLDER filename)
      if !mp3SaveOk then
        -- mp3_file.save raised; cleanup finds no file and metadata is None
        ⟨500, fs, []⟩
      else
        let fs1 := save_path :: fs
        let manualOpt := if manual_artist_name = "" then none else some manual_artist_name
        let mr := get_song_metadata filename newId manualOpt req.coverPart env
        let md := mr.1
        let fs2 := mr.2 ++ fs1
        match load_library file fresh with
        | .error _ =>
          -- exception caught at line 262: remove the saved MP3 and the cover
          let fs3 := if save_path ∈ fs2 then fs2.erase save_path else fs2
          ⟨500, uploadCoverCleanup fs3 md.coverSrc, []⟩
        | .ok lr =>
          let o : JObj := match lr.data with | .jobj o => o | _ => []
          let songs : JObj := match jget o "songs" with | some (.jobj s) => s | _ => []
          let data2 : JVal := .jobj (jset o "songs" (.jobj (jset songs newId (mdToJVal md))))
          match save_library data2 with
          | .ok so =>
            if so.ret then
              ⟨201, fs2, lr.saved.toList ++ so.written.toList⟩
            else
              -- raise IOError("Failed to save library data...") then cleanup
              let fs3 := if save_path ∈ fs2 then fs2.erase save_path else fs2
              ⟨500, uploadCoverCleanup fs3 md.coverSrc, lr.saved.toList⟩
          | .error _ =>
            -- exception caught at line 262: cleanup, 500
            let fs3 := if save_path ∈ fs2 then fs2.erase save_path else fs2
            ⟨500, uploadCoverCleanup fs3 md.coverSrc, lr.saved.toList⟩

-- ====================================================================
-- Association-list lemmas
-- ====================================================================

theorem jget_jset_self (o : JObj) (k : String) (v : JVal) :
    jget (jset o k v) k = some v := by
  induction o with
  | nil => simp [jget, jset]
  | cons p rest ih =>
    obtain ⟨k1, v1⟩ := p
    by_cases h : k1 = k <;> simp [jget, jset, h, ih]

theorem jset_of_get_none (o : JObj) (k : String) (v : JVal) (h : jget o k = none) :
    jset o k v = o ++ [(k, v)] := by
  induction o with
  | nil => simp [jset]
  | cons p rest ih =>
    obtain ⟨k1, v1⟩ := p
    by_cases hk : k1 = k
    · simp [jget, hk] at h
    · simp [jget, hk] at h
      simp [jset, hk, ih h]

theorem jset_of_get_some (o : JObj) (k : String) (v : JVal) (h : jget o k = some v) :
    jset o k v = o := by
  induction o with
  | nil => simp [jget] at h
  | cons p rest ih =>
    obtain ⟨k1, v1⟩ := p
    by_cases hk : k1 = k
    · simp [jget, hk] at h
      simp [jset, hk, h]
    · simp [jget, hk] at h
      simp [jset, hk, ih h]

theorem jget_append_of_none (a b : JObj) (k : String) (h : jget a k = none) :
    jget (a ++ b) k = jget b k := by
  induction a with
  | nil => simp
  | cons p rest ih =>
    obtain ⟨k1, v1⟩ := p
    by_cases hk : k1 = k
    · simp [jget, hk] at h
    · simp [jget, hk] at h
      simpa [jget, hk] using ih h

theorem jgetV_append_of_none (a b : List (JVal × JVal)) (k : JVal) (h : jgetV a k = none) :
    jgetV (a ++ b) k = jgetV b k := by
  induction a with
  | nil => simp
  | cons p rest ih =>
    obtain ⟨k1, v1⟩ := p
    by_cases hk : jeq k1 k
    · simp [jgetV, hk] at h
    · simp [jgetV, hk] at h
      simpa [jgetV, hk] using ih h

theorem jsetV_of_get_none (a : List (JVal × JVal)) (k v : JVal) (h : jgetV a k = none) :
    jsetV a k v = a ++ [(k, v)] := by
  induction a with
  | nil => simp [jsetV]
  | cons p rest ih =>
    obtain ⟨k1, v1⟩ := p
    by_cases hk : jeq k1 k
    · simp [jgetV, hk] at h
    · simp [jgetV, hk] at h
      simp [jsetV, hk, ih h]

-- ====================================================================
-- Normalized catalogs (the no-rewrite fixpoint of load_library)
-- ====================================================================

/-- The id value of record `o` is the string `key`. -/
def idMatches (o : JObj) (key : String) : Bool :=
  match jget o "id" with
  | some (.jstr s) => s = key
  | _ => false

/-- Any present `coverSrc` of record `o` is a rooted string. -/
def coverRootOk (o : JObj) : Bool :=
  match jget o "coverSrc" with
  | some (.jstr s) => strStartsWith s "/"
  | some _ => false
  | none => true

/-- A catalog entry is normalized: the record is a dict whose `id` equals
its key, the key is a sufficiently long (>= 10 characters) identifier,
`audioSrc` is present, and any present `coverSrc` is rooted — exactly the
conditions under which the `load_library` loop changes nothing. -/
def songNormalized (key : String) (sd : JVal) : Bool :=
  match sd with
  | .jobj o =>
    idMatches o key && decide (10 ≤ key.length) && (jget o "audioSrc").isSome && coverRootOk o
  | _ => false

theorem idMatches_iff (o : JObj) (key : String) :
    idMatches o key = true ↔ jget o "id" = some (.jstr key) := by
  unfold idMatches
  cases h : jget o "id" with
  | none => simp
  | some v => cases v <;> simp_all

theorem normalizeSong_normalized (fresh : Nat → String) (n : Nat) (key : String) (sd : JVal)
    (h : songNormalized key sd = true) :
    ∃ o, sd = .jobj o ∧ normalizeSong fresh n key sd = .ok (key, o, false, n) := by
  cases sd with
  | jobj o =>
    refine ⟨o, rfl, ?_⟩
    simp only [songNormalized, Bool.and_eq_true, decide_eq_true_eq] at h
    obtain ⟨⟨⟨hid, hlen⟩, haud⟩, hcov⟩ := h
    rw [idMatches_iff] at hid
    obtain ⟨a, ha⟩ := Option.isSome_iff_exists.mp haud
    have hnlt : ¬ key.length < 10 := Nat.not_lt.mpr hlen
    unfold coverRootOk at hcov
    cases hf : jget o "filename" with
    | none =>
      cases hc : jget o "coverSrc" with
      | none => simp [normalizeSong, hid, ha, hf, hc, hnlt]
      | some cv =>
        cases cv <;> simp [hc] at hcov ⊢ <;>
          simp [normalizeSong, hid, ha, hf, hc, hnlt, hcov]
    | some fv =>
      cases hc : jget o "coverSrc" with
      | none => simp [normalizeSong, hid, ha, hf, hc, hnlt]
      | some cv =>
        cases cv <;> simp [hc] at hcov ⊢ <;>
          simp [normalizeSong, hid, ha, hf, hc, hnlt, hcov]
  | null => simp [songNormalized] at h
  | jbool b => simp [songNormalized] at h
  | jnum m => simp [songNormalized] at h
  | jstr s => simp [songNormalized] at h
  | jarr xs => simp [songNormalized] at h

theorem exceptOkBind {ε α β : Type} (a : α) (f : α → Except ε β) :
    (do let r ← (Except.ok a : Except ε α); f r) = f a := rfl

theorem processSongs_normalized (fresh : Nat → String) :
    ∀ (songs acc : JObj) (needs : Bool) (n : Nat),
      (∀ p ∈ songs, songNormalized p.1 p.2 = true) →
      (∀ p ∈ songs, jget acc p.1 = none) →
      (songs.map Prod.fst).Nodup →
      processSongs fresh songs acc needs n = .ok (acc ++ songs, needs) := by
  intro songs
  induction songs with
  | nil => intro acc needs n _ _ _; simp [processSongs]
  | cons p rest ih =>
    intro acc needs n hn ha hd
    obtain ⟨key, sd⟩ := p
    obtain ⟨o, rfl, heq⟩ :=
      normalizeSong_normalized fresh n key sd (hn (key, sd) (List.mem_cons_self _ _))
    have hacc : jget acc key = none := ha (key, .jobj o) (List.mem_cons_self _ _)
    have hset : jset acc key (.jobj o) = acc ++ [(key, .jobj o)] :=
      jset_of_get_none acc key (.jobj o) hacc
    have hd' := hd
    simp only [List.map_cons, List.nodup_cons] at hd'
    obtain ⟨hknotin, hdrest⟩ := hd'
    have step : processSongs fresh ((key, JVal.jobj o) :: rest) acc needs n =
        processSongs fresh rest (jset acc key (.jobj o)) (needs || false) n := by
      simp only [processSongs, heq, exceptOkBind]
    rw [step, hset]
    have ha' : ∀ q ∈ rest, jget (acc ++ [(key, .jobj o)]) q.1 = none := by
      intro q hq
      have hq1 : jget acc q.1 = none := ha q (List.mem_cons_of_mem _ hq)
      rw [jget_append_of_none _ _ _ hq1]
      have hne : key ≠ q.1 := by
        intro hcontra
        exact hknotin (hcontra ▸ List.mem_map_of_mem Prod.fst hq)
      simp [jget]
      exact hne
    have hn' : ∀ q ∈ rest, songNormalized q.1 q.2 = true :=
      fun q hq => hn q (List.mem_cons_of_mem _ hq)
    have hfin := ih (acc ++ [(key, .jobj o)]) (needs || false) n hn' ha' hdrest
    simpa using hfin

theorem load_library_normalized (o songs : JObj) (fresh : Nat → String)
    (hs : jget o "songs" = some (.jobj songs))
    (hn : ∀ p ∈ songs, songNormalized p.1 p.2 = true)
    (hd : (songs.map Prod.fst).Nodup) :
    load_library (.content (.jobj o)) fresh = .ok ⟨.jobj o, none⟩ := by
  have hproc := processSongs_normalized fresh songs [] false 0 hn (by intro p _; rfl) hd
  simp only [load_library, hs, hproc, exceptOkBind]
  simp [jset_of_get_some o "songs" (.jobj songs) hs]

theorem buildCorrected_normalized :
    ∀ (songs : JObj) (acc : List (JVal × JVal)),
      (∀ p ∈ songs, songNormalized p.1 p.2 = true) →
      (∀ p ∈ songs, jgetV acc (.jstr p.1) = none) →
      (songs.map Prod.fst).Nodup →
      buildCorrected songs acc = acc ++ songs.map (fun p => (.jstr p.1, p.2)) := by
  intro songs
  induction songs with
  | nil => intro acc _ _ _; simp [buildCorrected]
  | cons p rest ih =>
    intro acc hn ha hd
    obtain ⟨key, sd⟩ := p
    have hns := hn (key, sd) (List.mem_cons_self _ _)
    cases sd with
    | jobj so =>
      have hid : jget so "id" = some (.jstr key) := by
        simp only [songNormalized, Bool.and_eq_true] at hns
        exact (idMatches_iff so key).mp hns.1.1.1
      have hacc : jgetV acc (.jstr key) = none := ha (key, .jobj so) (List.mem_cons_self _ _)
      have hset : jsetV acc (.jstr key) (.jobj so) = acc ++ [(.jstr key, .jobj so)] :=
        jsetV_of_get_none acc (.jstr key) (.jobj so) hacc
      simp only [List.map_cons, List.nodup_cons] at hd
      obtain ⟨hknotin, hdrest⟩ := hd
      have step : buildCorrected ((key, JVal.jobj so) :: rest) acc =
          buildCorrected rest (jsetV acc (.jstr key) (.jobj so)) := by
        simp [buildCorrected, hid]
      rw [step, hset]
      have ha' : ∀ q ∈ rest, jgetV (acc ++ [(.jstr key, .jobj so)]) (.jstr q.1) = none := by
        intro q hq
        have hq1 : jgetV acc (.jstr q.1) = none := ha q (List.mem_cons_of_mem _ hq)
        rw [jgetV_append_of_none _ _ _ hq1]
        have hne : key ≠ q.1 := by
          intro hcontra
          exact hknotin (hcontra ▸ List.mem_map_of_mem Prod.fst hq)
        simp [jgetV, jeq]
        exact hne
      have hn' : ∀ q ∈ rest, songNormalized q.1 q.2 = true :=
        fun q hq => hn q (List.mem_cons_of_mem _ hq)
      have hfin := ih (acc ++ [(.jstr key, .jobj so)]) hn' ha' hdrest
      simpa using hfin
    | null => simp [songNormalized] at hns
    | jbool b => simp [songNormalized] at hns
    | jnum m => simp [songNormalized] at hns
    | jstr s => simp [songNormalized] at hns
    | jarr xs => simp [songNormalized] at hns

theorem keysToJson_strs : ∀ (songs : JObj),
    keysToJson (songs.map (fun p => (.jstr p.1, p.2))) = some songs := by
  intro songs
  induction songs with
  | nil => simp [keysToJson]
  | cons p rest ih =>
    obtain ⟨key, sd⟩ := p
    simp [keysToJson, jsonKey, ih]

theorem save_library_normalized (o songs : JObj)
    (hs : jget o "songs" = some (.jobj songs))
    (hn : ∀ p ∈ songs, songNormalized p.1 p.2 = true)
    (hd : (songs.map Prod.fst).Nodup) :
    save_library (.jobj o) = .ok ⟨some (.jobj o), true⟩ := by
  have hbc := buildCorrected_normalized songs [] hn (by intro p _; rfl) hd
  simp only [save_library, hs, hbc, List.nil_append, keysToJson_strs]
  simp [jset_of_get_some o "songs" (.jobj songs) hs]

-- ====================================================================
-- Claim theorems
-- ====================================================================

/-- C9: for every catalog file that is already normalized — every key is a
well-formed, sufficiently long (at least 10 characters) identifier equal to
the id field of its record, every record has an audioSrc, and every present
coverSrc is rooted — load_library performs no rewrite of the file: it
returns the parsed data unchanged and writes nothing back (the Nodup
hypothesis states that the JSON object has no duplicate keys). -/
theorem c9_normalized_load_no_rewrite (o songs : JObj) (fresh : Nat → String)
    (hs : jget o "songs" = some (.jobj songs))
    (hn : ∀ p ∈ songs, songNormalized p.1 p.2 = true)
    (hd : (songs.map Prod.fst).Nodup) :
    load_library (.content (.jobj o)) fresh = .ok ⟨.jobj o, none⟩ :=
  load_library_normalized o songs fresh hs hn hd

theorem c9_normalized_load_no_rewrite_witness :
    load_library (.content (.jobj [("songs", .jobj [("abcdefghij", .jobj
        [("id", .jstr "abcdefghij"), ("audioSrc", .jstr "/uploads/a.mp3")])])]))
        (fun _ => "w")
      = .ok ⟨.jobj [("songs", .jobj [("abcdefghij", .jobj
        [("id", .jstr "abcdefghij"), ("audioSrc", .jstr "/uploads/a.mp3")])])], none⟩ :=
  c9_normalized_load_no_rewrite
    [("songs", .jobj [("abcdefghij", .jobj
        [("id", .jstr "abcdefghij"), ("audioSrc", .jstr "/uploads/a.mp3")])])]
    [("abcdefghij", .jobj [("id", .jstr "abcdefghij"), ("audioSrc", .jstr "/uploads/a.mp3")])]
    (fun _ => "w") rfl (by decide) (by decide)

/-- C4 counterexample: the claim quantifies over every catalog file state,
but on a legacy (non-normalized) file the normalization pass inside
load_library rewrites the file even though the DELETE request returns 404.
Here the file holds a record keyed "k" (too short), the handler is asked to
delete the absent id "missing-id": the response is 404, yet the library
file is rewritten with a freshly generated id — the written JSON object
does not contain the key "k" that the original contained, so the bytes of
the file change (json.dump of a different value yields different bytes,
since parsing is a function). -/
theorem c4_counterexample :
    delete_song (.content (.jobj [("songs", .jobj [("k", .jobj [("id", .jstr "k")])])]))
        (fun _ => "freshid-0001") [] "missing-id"
      = .ok ⟨404,
             [.jobj [("songs", .jobj [("freshid-0001", .jobj [("id", .jstr "freshid-0001")])])]],
             []⟩
    ∧ (jget [("freshid-0001", JVal.jobj [("id", JVal.jstr "freshid-0001")])] "k").isSome = false
    ∧ (jget [("k", JVal.jobj [("id", JVal.jstr "k")])] "k").isSome = true :=
  ⟨rfl, rfl, rfl⟩

/-- C4 amended: deleting a song id that is not in the loaded catalog
returns 404 and, provided the catalog file is already normalized (so the
load-time normalization pass does not rewrite it), the file is not written
at all — hence its bytes are unchanged — and the filesystem is untouched.
(For non-normalized files the 404 still holds but load_library itself may
re-save the file, as the counterexample shows.) -/
theorem c4_delete_missing_normalized (o songs : JObj) (fresh : Nat → String)
    (fs : List String) (song_id : String)
    (hs : jget o "songs" = some (.jobj songs))
    (hn : ∀ p ∈ songs, songNormalized p.1 p.2 = true)
    (hd : (songs.map Prod.fst).Nodup)
    (hmiss : jget songs song_id = none) :
    delete_song (.content (.jobj o)) fresh fs song_id = .ok ⟨404, [], fs⟩ := by
  have hload := load_library_normalized o songs fresh hs hn hd
  simp only [delete_song, hload, exceptOkBind, hs, hmiss]
  rfl

theorem c4_delete_missing_normalized_witness :
    delete_song (.content (.jobj [("songs", .jobj [("abcdefghij", .jobj
        [("id", .jstr "abcdefghij"), ("audioSrc", .jstr "/uploads/a.mp3")])])]))
        (fun _ => "w") ["/srv/app/uploads/a.mp3"] "missing-id"
      = .ok ⟨404, [], ["/srv/app/uploads/a.mp3"]⟩ :=
  c4_delete_missing_normalized
    [("songs", .jobj [("abcdefghij", .jobj
        [("id", .jstr "abcdefghij"), ("audioSrc", .jstr "/uploads/a.mp3")])])]
    [("abcdefghij", .jobj [("id", .jstr "abcdefghij"), ("audioSrc", .jstr "/uploads/a.mp3")])]
    (fun _ => "w") ["/srv/app/uploads/a.mp3"] "missing-id" rfl (by decide) (by decide) rfl

/-- C5 counterexample: the claim quantifies over every catalog, but the
round trip does not preserve records whose id is malformed.  The catalog
below holds one record with the too-short id "ab" (under key "k1"):
save_library re-keys it under "ab" and writes that; load_library then
replaces the id "ab" by a freshly generated identifier, so the loaded set
of records keyed by id — one record with id "freshid-0001" — differs from
the saved one, whose only record has id "ab". -/
theorem c5_counterexample :
    save_library (.jobj [("songs", .jobj [("k1", .jobj [("id", .jstr "ab")])])])
      = .ok ⟨some (.jobj [("songs", .jobj [("ab", .jobj [("id", .jstr "ab")])])]), true⟩
    ∧ load_library (.content (.jobj [("songs", .jobj [("ab", .jobj [("id", .jstr "ab")])])]))
        (fun _ => "freshid-0001")
      = .ok ⟨.jobj [("songs", .jobj [("freshid-0001", .jobj [("id", .jstr "freshid-0001")])])],
             some (.jobj [("songs", .jobj [("freshid-0001",
               .jobj [("id", .jstr "freshid-0001")])])])⟩
    ∧ (jget [("freshid-0001", JVal.jobj [("id", JVal.jstr "freshid-0001")])] "ab").isSome
        = false :=
  ⟨rfl, rfl, rfl⟩

/-- C5 amended: for every normalized catalog — records are dicts whose id
equals their key and is at least 10 characters, audioSrc present, any
present coverSrc rooted, keys distinct — saving writes exactly the catalog
value and loading the written file returns it unchanged, so the round trip
preserves the set of records keyed by id. -/
theorem c5_roundtrip_normalized (o songs : JObj) (fresh : Nat → String)
    (hs : jget o "songs" = some (.jobj songs))
    (hn : ∀ p ∈ songs, songNormalized p.1 p.2 = true)
    (hd : (songs.map Prod.fst).Nodup) :
    save_library (.jobj o) = .ok ⟨some (.jobj o), true⟩
    ∧ load_library (.content (.jobj o)) fresh = .ok ⟨.jobj o, none⟩ :=
  ⟨save_library_normalized o songs hs hn hd,
   load_library_normalized o songs fresh hs hn hd⟩

theorem c5_roundtrip_normalized_witness :
    save_library (.jobj [("songs", .jobj [("abcdefghij", .jobj
        [("id", .jstr "abcdefghij"), ("audioSrc", .jstr "/uploads/a.mp3")])])])
      = .ok ⟨some (.jobj [("songs", .jobj [("abcdefghij", .jobj
        [("id", .jstr "abcdefghij"), ("audioSrc", .jstr "/uploads/a.mp3")])])]), true⟩
    ∧ load_library (.content (.jobj [("songs", .jobj [("abcdefghij", .jobj
        [("id", .jstr "abcdefghij"), ("audioSrc", .jstr "/uploads/a.mp3")])])]))
        (fun _ => "w")
      = .ok ⟨.jobj [("songs", .jobj [("abcdefghij", .jobj
        [("id", .jstr "abcdefghij"), ("audioSrc", .jstr "/uploads/a.mp3")])])], none⟩ :=
  c5_roundtrip_normalized
    [("songs", .jobj [("abcdefghij", .jobj
        [("id", .jstr "abcdefghij"), ("audioSrc", .jstr "/uploads/a.mp3")])])]
    [("abcdefghij", .jobj [("id", .jstr "abcdefghij"), ("audioSrc", .jstr "/uploads/a.mp3")])]
    (fun _ => "w") rfl (by decide) (by decide)

/-- C2 counterexample: a library file containing the JSON value 5 — valid
JSON, structurally invalid as a catalog — makes load_library raise an
uncaught TypeError (the except clause catches only json.JSONDecodeError
and IOError, and the membership test on a non-container raises TypeError),
contradicting the claim that load never raises for any JSON value. -/
theorem c2_counterexample :
    load_library (.content (.jnum 5)) (fun _ => "w")
      = .error "TypeError: non-object library content" := rfl

/-- C2 amended: load_library returns the empty catalog, without raising,
when the file is absent or unreadable (which includes bytes that fail to
parse as JSON); but for a file whose bytes parse to a non-object JSON
value, load_library raises an uncaught exception instead of degrading. -/
theorem c2_load_degraded (fresh : Nat → String) :
    load_library .absent fresh = .ok ⟨.jobj [("songs", .jobj [])], none⟩
    ∧ load_library .unreadable fresh = .ok ⟨.jobj [("songs", .jobj [])], none⟩
    ∧ ∀ v : JVal, (∀ kvs, v ≠ .jobj kvs) →
        ∃ msg, load_library (.content v) fresh = .error msg := by
  refine ⟨rfl, rfl, ?_⟩
  intro v hv
  cases v with
  | jobj kvs => exact absurd rfl (hv kvs)
  | null => exact ⟨_, rfl⟩
  | jbool b => exact ⟨_, rfl⟩
  | jnum m => exact ⟨_, rfl⟩
  | jstr s => exact ⟨_, rfl⟩
  | jarr xs => exact ⟨_, rfl⟩

theorem c2_load_degraded_witness :
    load_library .absent (fun _ => "w") = .ok ⟨.jobj [("songs", .jobj [])], none⟩
    ∧ ∃ msg, load_library (.content .null) (fun _ => "w") = .error msg :=
  ⟨(c2_load_degraded (fun _ => "w")).1,
   (c2_load_degraded (fun _ => "w")).2.2 .null (fun kvs h => JVal.noConfusion h)⟩

/-- C1 counterexample: the deletion gate is a string-prefix test on the
resolved paths, not a directory-containment test.  With the stored file
"/srv/app/uploadsEvil/a.mp3" on disk and a catalog filename of
"../uploadsEvil/a.mp3", the resolved path lies outside the upload
directory, yet it string-starts with the resolved upload directory
"/srv/app/uploads", so the handler deletes the file (flag true, file
erased) instead of treating the slot as a failed removal. -/
theorem c1_counterexample :
    pyResolve CWD (pyPathJoin UPLOAD_FOLDER "../uploadsEvil/a.mp3")
      = "/srv/app/uploadsEvil/a.mp3"
    ∧ withinDir (pyResolve CWD UPLOAD_FOLDER) "/srv/app/uploadsEvil/a.mp3" = false
    ∧ deleteAudioSlot ["/srv/app/uploadsEvil/a.mp3"] (some (.jstr "../uploadsEvil/a.mp3"))
        = .ok (true, []) :=
  ⟨rfl, rfl, rfl⟩

/-- C1 amended: in the deletion handler each slot is gated by a
string-prefix check of the resolved absolute path against the resolved
storage directory (upload directory for audio, covers directory for
covers) — not by true directory containment, so sibling paths extending
the directory name also pass.  When the prefix check fails and the stored
file exists, nothing is deleted and the slot is a failed (non-trivial)
removal; when it holds, the slot succeeds and at most the resolved path
itself is removed. -/
theorem c1_prefix_gate (fs : List String) (fn cs : String)
    (hfn : fn ≠ "") (hcs : cs ≠ "")
    (hrel : strStartsWith (lstripSlashes cs) (COVERS_FOLDER_NAME ++ "/") = true) :
    (strStartsWith (pyResolve CWD (pyPathJoin UPLOAD_FOLDER fn))
        (pyResolve CWD UPLOAD_FOLDER) = false →
      deleteAudioSlot fs (some (.jstr fn))
        = .ok (!(decide (pyResolve CWD (pyPathJoin UPLOAD_FOLDER fn) ∈ fs)), fs))
    ∧ (strStartsWith (pyResolve CWD (pyPathJoin UPLOAD_FOLDER fn))
        (pyResolve CWD UPLOAD_FOLDER) = true →
      deleteAudioSlot fs (some (.jstr fn))
        = .ok (true, if pyResolve CWD (pyPathJoin UPLOAD_FOLDER fn) ∈ fs
                     then fs.erase (pyResolve CWD (pyPathJoin UPLOAD_FOLDER fn)) else fs))
    ∧ (strStartsWith (pyResolve CWD (pyPathJoin UPLOAD_FOLDER (lstripSlashes cs)))
        (pyResolve CWD COVERS_FOLDER) = false →
      deleteCoverSlot fs (some (.jstr cs))
        = .ok (!(decide (pyResolve CWD (pyPathJoin UPLOAD_FOLDER (lstripSlashes cs)) ∈ fs)),
               fs))
    ∧ (strStartsWith (pyResolve CWD (pyPathJoin UPLOAD_FOLDER (lstripSlashes cs)))
        (pyResolve CWD COVERS_FOLDER) = true →
      deleteCoverSlot fs (some (.jstr cs))
        = .ok (true, if pyResolve CWD (pyPathJoin UPLOAD_FOLDER (lstripSlashes cs)) ∈ fs
                     then fs.erase (pyResolve CWD (pyPathJoin UPLOAD_FOLDER (lstripSlashes cs)))
                     else fs)) := by
  refine ⟨?_, ?_, ?_, ?_⟩
  · intro hp
    by_cases hm : pyResolve CWD (pyPathJoin UPLOAD_FOLDER fn) ∈ fs
    · simp [deleteAudioSlot, JVal.truthy, hfn, hm, hp]
    · simp [deleteAudioSlot, JVal.truthy, hfn, hm]
  · intro hp
    by_cases hm : pyResolve CWD (pyPathJoin UPLOAD_FOLDER fn) ∈ fs
    · simp [deleteAudioSlot, JVal.truthy, hfn, hm, hp]
    · simp [deleteAudioSlot, JVal.truthy, hfn, hm]
  · intro hp
    by_cases hm : pyResolve CWD (pyPathJoin UPLOAD_FOLDER (lstripSlashes cs)) ∈ fs
    · simp [deleteCoverSlot, JVal.truthy, hcs, hrel, hm, hp]
    · simp [deleteCoverSlot, JVal.truthy, hcs, hrel, hm]
  · intro hp
    by_cases hm : pyResolve CWD (pyPathJoin UPLOAD_FOLDER (lstripSlashes cs)) ∈ fs
    · simp [deleteCoverSlot, JVal.truthy, hcs, hrel, hm, hp]
    · simp [deleteCoverSlot, JVal.truthy, hcs, hrel, hm]

theorem c1_prefix_gate_witness :
    deleteAudioSlot ["/srv/app/uploads/a.mp3"] (some (.jstr "a.mp3")) = .ok (true, [])
    ∧ deleteCoverSlot ["/srv/app/uploads/a.mp3"] (some (.jstr "/covers/c.png"))
        = .ok (true, ["/srv/app/uploads/a.mp3"]) := by
  have h := c1_prefix_gate ["/srv/app/uploads/a.mp3"] "a.mp3" "/covers/c.png"
      (by decide) (by decide) (by decide)
  constructor
  · rw [h.2.1 (by decide)]
    rfl
  · rw [h.2.2.2 (by decide)]
    rfl

/-- C10: in the deletion handler, a present (truthy) coverSrc string that,
after stripping leading slashes, does not begin with the covers-folder
prefix is treated as trivially removed: the flag is success and the
filesystem is untouched, so such a malformed coverSrc never blocks the
removal of the catalog entry (the handler only requires both slot flags to
be true to delete the entry). -/
theorem c10_malformed_cover_trivial (fs : List String) (cs : String)
    (hcs : cs ≠ "")
    (hrel : strStartsWith (lstripSlashes cs) (COVERS_FOLDER_NAME ++ "/") = false) :
    deleteCoverSlot fs (some (.jstr cs)) = .ok (true, fs) := by
  simp [deleteCoverSlot, JVal.truthy, hcs, hrel]

theorem c10_malformed_cover_trivial_witness :
    deleteCoverSlot ["/srv/app/uploads/covers/weird.png"] (some (.jstr "weird.png"))
      = .ok (true, ["/srv/app/uploads/covers/weird.png"]) :=
  c10_malformed_cover_trivial ["/srv/app/uploads/covers/weird.png"] "weird.png"
    (by decide) (by decide)

/-- Characterization of the embedded-picture loop: it returns the first
tag entry whose name starts with APIC and whose normalized extension is
allowed, skipping every earlier entry (including APIC entries of
disallowed type), and stops there; with a failing write the cover stays
absent. -/
theorem scanEmbedded_eq_find (frames : List ID3Frame) (sid : String) (wOk : Bool) :
    scanEmbedded frames sid wOk =
      match frames.find? (fun f => strStartsWith f.name "APIC"
          && ALLOWED_COVER_EXTENSIONS.contains (normExt f.mime)) with
      | none => (none, [])
      | some f =>
        if wOk then
          (some ("/" ++ COVERS_FOLDER_NAME ++ "/" ++ (sid ++ "." ++ normExt f.mime)),
           [pyResolve CWD (COVERS_FOLDER ++ "/" ++ (sid ++ "." ++ normExt f.mime))])
        else (none, []) := by
  induction frames with
  | nil => simp [scanEmbedded]
  | cons f rest ih =>
    by_cases ha : strStartsWith f.name "APIC"
    · by_cases he : normExt f.mime ∈ ALLOWED_COVER_EXTENSIONS
      · simp [scanEmbedded, ha, he, List.find?]
      · simp [scanEmbedded, ha, he, List.find?, ih]
    · simp [scanEmbedded, ha, List.find?, ih]

/-- C3 counterexample: the first embedded picture examined has the
disallowed type image/tiff, yet the scan result is not empty — the loop
continues past the disallowed picture and takes the cover from the second
(jpeg) picture, contradicting the claim that the scan does not continue to
any further embedded picture after a disallowed first one. -/
theorem c3_counterexample :
    ALLOWED_COVER_EXTENSIONS.contains (normExt "image/tiff") = false
    ∧ scanEmbedded [⟨"APIC:", "image/tiff", "T"⟩, ⟨"APIC:x", "image/jpeg", "J"⟩] "sid0" true
        = (some "/covers/sid0.jpg", ["/srv/app/uploads/covers/sid0.jpg"]) :=
  ⟨rfl, rfl⟩

/-- C3 amended: the linear scan of the tag entries skips embedded pictures
of disallowed type and continues; it stops at the first embedded picture
whose normalized type is allowed, writing it as the cover (or, if that one
write fails, stopping with no cover set) — it does not stop at the first
picture examined. -/
theorem c3_scan_stops_at_first_allowed (frames : List ID3Frame) (sid : String) (wOk : Bool) :
    scanEmbedded frames sid wOk =
      match frames.find? (fun f => strStartsWith f.name "APIC"
          && ALLOWED_COVER_EXTENSIONS.contains (normExt f.mime)) with
      | none => (none, [])
      | some f =>
        if wOk then
          (some ("/" ++ COVERS_FOLDER_NAME ++ "/" ++ (sid ++ "." ++ normExt f.mime)),
           [pyResolve CWD (COVERS_FOLDER ++ "/" ++ (sid ++ "." ++ normExt f.mime))])
        else (none, []) :=
  scanEmbedded_eq_find frames sid wOk

-- ====================================================================
-- Field-preservation lemmas for the Metadata Resolver
-- ====================================================================

theorem uploadedCoverStep_artist (sid : String) (cov : Option String) (ok : Bool)
    (md : Metadata) : (uploadedCoverStep sid cov ok md).1.artist = md.artist := by
  cases cov with
  | none => simp [uploadedCoverStep]
  | some cfn =>
    by_cases ha : cfn = ""
    · simp [uploadedCoverStep, ha]
    · by_cases hb : allowed_cover_file cfn = true
      · by_cases h2 : ok = true
        · simp [uploadedCoverStep, ha, hb, h2]
        · simp [uploadedCoverStep, ha, hb, h2]
      · simp [uploadedCoverStep, ha, hb]

theorem uploadedCoverStep_audioSrc (sid : String) (cov : Option String) (ok : Bool)
    (md : Metadata) : (uploadedCoverStep sid cov ok md).1.audioSrc = md.audioSrc := by
  cases cov with
  | none => simp [uploadedCoverStep]
  | some cfn =>
    by_cases ha : cfn = ""
    · simp [uploadedCoverStep, ha]
    · by_cases hb : allowed_cover_file cfn = true
      · by_cases h2 : ok = true
        · simp [uploadedCoverStep, ha, hb, h2]
        · simp [uploadedCoverStep, ha, hb, h2]
      · simp [uploadedCoverStep, ha, hb]

theorem uploadedCoverStep_coverSrc (sid : String) (cov : Option String) (ok : Bool)
    (md : Metadata) :
    (uploadedCoverStep sid cov ok md).1.coverSrc = md.coverSrc
    ∨ ∃ e, ALLOWED_COVER_EXTENSIONS.contains e = true
        ∧ (uploadedCoverStep sid cov ok md).1.coverSrc
            = some ("/" ++ COVERS_FOLDER_NAME ++ "/" ++ (sid ++ "." ++ e)) := by
  cases cov with
  | none => left; simp [uploadedCoverStep]
  | some cfn =>
    by_cases ha : cfn = ""
    · left; simp [uploadedCoverStep, ha]
    · by_cases hb : allowed_cover_file cfn = true
      · by_cases h2 : ok = true
        · right
          refine ⟨strToLower (rsplitDot cfn), ?_, ?_⟩
          · have hac := hb
            simp only [allowed_cover_file, Bool.and_eq_true] at hac
            exact hac.2
          · simp [uploadedCoverStep, ha, hb, h2]
        · left; simp [uploadedCoverStep, ha, hb, h2]
      · left; simp [uploadedCoverStep, ha, hb]

theorem easyTagStep_audioSrc (m : Option String) (e : EasyRead) (md : Metadata) :
    (easyTagStep m e md).audioSrc = md.audioSrc := by
  cases e <;> simp [easyTagStep, apply_ite Metadata.audioSrc]

theorem easyTagStep_coverSrc (m : Option String) (e : EasyRead) (md : Metadata) :
    (easyTagStep m e md).coverSrc = md.coverSrc := by
  cases e <;> simp [easyTagStep, apply_ite Metadata.coverSrc]

theorem easyTagStep_artist (m : Option String) (e : EasyRead) (md : Metadata) :
    (easyTagStep m e md).artist =
      match e with
      | .ok t => if optStrTruthy m then m.getD "" else t.artist.getD md.artist
      | _ => if optStrTruthy m then m.getD "" else md.artist := by
  cases e <;> simp [easyTagStep, apply_ite Metadata.artist]

theorem finalArtistStep_artist (m : Option String) (md : Metadata) :
    (finalArtistStep m md).artist =
      if md.artist = "" || md.artist = "Unknown Artist" then
        (if optStrTruthy m then m.getD "" else "Unknown Artist")
      else md.artist := by
  simp [finalArtistStep, apply_ite Metadata.artist]

theorem finalArtistStep_audioSrc (m : Option String) (md : Metadata) :
    (finalArtistStep m md).audioSrc = md.audioSrc := by
  simp [finalArtistStep, apply_ite Metadata.audioSrc]

theorem finalArtistStep_coverSrc (m : Option String) (md : Metadata) :
    (finalArtistStep m md).coverSrc = md.coverSrc := by
  simp [finalArtistStep, apply_ite Metadata.coverSrc]

theorem scanEmbedded_coverSrc (frames : List ID3Frame) (sid : String) (wOk : Bool) (c : String)
    (h : (scanEmbedded frames sid wOk).1 = some c) :
    ∃ e, ALLOWED_COVER_EXTENSIONS.contains e = true
      ∧ c = "/" ++ COVERS_FOLDER_NAME ++ "/" ++ (sid ++ "." ++ e) := by
  rw [scanEmbedded_eq_find] at h
  cases hfind : frames.find? (fun f => strStartsWith f.name "APIC"
      && ALLOWED_COVER_EXTENSIONS.contains (normExt f.mime)) with
  | none => rw [hfind] at h; simp at h
  | some f =>
    rw [hfind] at h
    by_cases hw : wOk = true
    · simp only [hw, if_true] at h
      have hp := List.find?_some hfind
      simp only [Bool.and_eq_true] at hp
      simp only [Option.some.injEq] at h
      exact ⟨normExt f.mime, hp.2, h.symm⟩
    · simp [hw] at h

/-- C6 counterexample: load_library does not establish the rootedness
invariant for records that already carry an audioSrc — a stored record
whose audioSrc is the non-rooted string "evil" passes through loading
unchanged (the loop only derives audioSrc when it is missing), so a
catalog produced by load can contain a present, non-empty audioSrc that
does not begin with a slash. -/
theorem c6_counterexample :
    load_library (.content (.jobj [("songs", .jobj [("abcdefghij", .jobj
        [("id", .jstr "abcdefghij"), ("audioSrc", .jstr "evil")])])])) (fun _ => "w")
      = .ok ⟨.jobj [("songs", .jobj [("abcdefghij", .jobj
        [("id", .jstr "abcdefghij"), ("audioSrc", .jstr "evil")])])], none⟩
    ∧ strStartsWith "evil" "/" = false :=
  ⟨rfl, rfl⟩

/-- C6 amended: every record produced by the Metadata Resolver satisfies
the invariant — its audioSrc is exactly the rooted upload path of its
filename, and its coverSrc, when present, is exactly the rooted covers
path of the song id with an allowed extension.  (Catalogs produced by
load_library do not in general satisfy the invariant: load derives or
rewrites only missing audioSrc and non-rooted coverSrc fields and passes
other pre-existing values through unchecked, as the counterexample
shows.) -/
theorem c6_resolver_rooted (fn sid : String) (man cov : Option String) (env : TagEnv) :
    (get_song_metadata fn sid man cov env).1.audioSrc = "/uploads/" ++ fn
    ∧ ∀ c, (get_song_metadata fn sid man cov env).1.coverSrc = some c →
        ∃ e, ALLOWED_COVER_EXTENSIONS.contains e = true
          ∧ c = "/" ++ COVERS_FOLDER_NAME ++ "/" ++ (sid ++ "." ++ e) := by
  simp only [get_song_metadata]
  set md0 : Metadata :=
    { id := sid, filename := fn, title := pyStem fn, artist := "Unknown Artist",
      album := "Unknown Album", genre := "Unknown Genre",
      audioSrc := "/uploads/" ++ fn, coverSrc := none } with hmd0
  rcases hs1 : uploadedCoverStep sid cov env.coverSaveOk md0 with ⟨md1, cs1, ws1⟩
  have h1a : md1.audioSrc = "/uploads/" ++ fn := by
    have h := uploadedCoverStep_audioSrc sid cov env.coverSaveOk md0
    rw [hs1] at h
    simpa [hmd0] using h
  have h1c : md1.coverSrc = none
      ∨ ∃ e, ALLOWED_COVER_EXTENSIONS.contains e = true
          ∧ md1.coverSrc = some ("/" ++ COVERS_FOLDER_NAME ++ "/" ++ (sid ++ "." ++ e)) := by
    have h := uploadedCoverStep_coverSrc sid cov env.coverSaveOk md0
    rw [hs1] at h
    simpa [hmd0] using h
  by_cases h2 : (env.mutagenAvailable && env.fileIsFile) = true
  · simp only [h2, if_true]
    by_cases hcs : cs1 = true
    · simp only [hcs, if_true]
      constructor
      · simp [finalArtistStep_audioSrc, easyTagStep_audioSrc, h1a]
      · intro c hc
        simp [finalArtistStep_coverSrc, easyTagStep_coverSrc] at hc
        rcases h1c with hnone | ⟨e, he, hsome⟩
        · rw [hnone] at hc; cases hc
        · rw [hsome] at hc
          simp only [Option.some.injEq] at hc
          exact ⟨e, he, hc.symm⟩
    · simp only [hcs, if_false]
      cases hfull : env.full with
      | err =>
        constructor
        · simp [finalArtistStep_audioSrc, easyTagStep_audioSrc, h1a]
        · intro c hc
          simp [finalArtistStep_coverSrc, easyTagStep_coverSrc] at hc
          rcases h1c with hnone | ⟨e, he, hsome⟩
          · rw [hnone] at hc; cases hc
          · rw [hsome] at hc
            simp only [Option.some.injEq] at hc
            exact ⟨e, he, hc.symm⟩
      | noTags =>
        constructor
        · simp [finalArtistStep_audioSrc, easyTagStep_audioSrc, h1a]
        · intro c hc
          simp [finalArtistStep_coverSrc, easyTagStep_coverSrc] at hc
          rcases h1c with hnone | ⟨e, he, hsome⟩
          · rw [hnone] at hc; cases hc
          · rw [hsome] at hc
            simp only [Option.some.injEq] at hc
            exact ⟨e, he, hc.symm⟩
      | tags frames =>
        cases hscan : (scanEmbedded frames sid env.embedWriteOk).1 with
        | none =>
          constructor
          · simp [hscan, finalArtistStep_audioSrc, easyTagStep_audioSrc, h1a]
          · intro c hc
            simp [hscan, finalArtistStep_coverSrc, easyTagStep_coverSrc] at hc
            rcases h1c with hnone | ⟨e, he, hsome⟩
            · rw [hnone] at hc; cases hc
            · rw [hsome] at hc
              simp only [Option.some.injEq] at hc
              exact ⟨e, he, hc.symm⟩
        | some c0 =>
          constructor
          · simp [hscan, finalArtistStep_audioSrc, easyTagStep_audioSrc, h1a]
          · intro c hc
            simp [hscan, finalArtistStep_coverSrc, easyTagStep_coverSrc] at hc
            subst hc
            exact scanEmbedded_coverSrc frames sid env.embedWriteOk c0 hscan
  · simp only [h2, if_false]
    by_cases hmut : env.mutagenAvailable = false
    · simp only [hmut, if_true]
      constructor
      · simp [finalArtistStep_audioSrc, h1a]
      · intro c hc
        simp [finalArtistStep_coverSrc] at hc
        rcases h1c with hnone | ⟨e, he, hsome⟩
        · rw [hnone] at hc; cases hc
        · rw [hsome] at hc
          simp only [Option.some.injEq] at hc
          exact ⟨e, he, hc.symm⟩
    · simp only [hmut, if_false]
      constructor
      · simp [finalArtistStep_audioSrc, h1a]
      · intro c hc
        simp [finalArtistStep_coverSrc] at hc
        rcases h1c with hnone | ⟨e, he, hsome⟩
        · rw [hnone] at hc; cases hc
        · rw [hsome] at hc
          simp only [Option.some.injEq] at hc
          exact ⟨e, he, hc.symm⟩

theorem c6_resolver_rooted_witness :
    (get_song_metadata "x.mp3" "sid000" none (some "c.png")
        ⟨true, true, .err, .noTags, true, true⟩).1.audioSrc = "/uploads/" ++ "x.mp3"
    ∧ ∃ e, ALLOWED_COVER_EXTENSIONS.contains e = true
        ∧ "/covers/sid000.png" = "/" ++ COVERS_FOLDER_NAME ++ "/" ++ ("sid000" ++ "." ++ e) :=
  ⟨(c6_resolver_rooted "x.mp3" "sid000" none (some "c.png")
      ⟨true, true, .err, .noTags, true, true⟩).1,
   (c6_resolver_rooted "x.mp3" "sid000" none (some "c.png")
      ⟨true, true, .err, .noTags, true, true⟩).2 "/covers/sid000.png" rfl⟩

/-- C7 counterexample: with tag reading available, the file present, no
manual artist, and the tag artist frame present but holding the empty
string, the code yields the sentinel "Unknown Artist" (the final pass at
lines 210-211 replaces an empty artist), whereas the claim requires the
artist to equal the tag value, here the empty string. -/
theorem c7_counterexample :
    (get_song_metadata "a.mp3" "sid" none none
        ⟨true, true, .ok ⟨none, some "", none, none⟩, .noTags, true, true⟩).1.artist
      = "Unknown Artist"
    ∧ ("Unknown Artist" : String) ≠ "" :=
  ⟨rfl, by decide⟩

/-- C7 amended: when tag reading is available and the audio file exists,
the resulting artist is the manual artist when one was supplied
(non-empty), else the tag artist when it is present and non-empty, else
the sentinel "Unknown Artist" (an empty tag artist is replaced by the
sentinel, and when tag reading fails the tag artist counts as absent);
in particular a supplied manual artist always takes precedence. -/
theorem c7_artist_resolution (fn sid : String) (man cov : Option String) (env : TagEnv)
    (hm : env.mutagenAvailable = true) (hf : env.fileIsFile = true) :
    (get_song_metadata fn sid man cov env).1.artist =
      if optStrTruthy man then man.getD ""
      else
        match env.easy with
        | .ok t =>
          match t.artist with
          | some v => if v = "" then "Unknown Artist" else v
          | none => "Unknown Artist"
        | .noHeader => "Unknown Artist"
        | .err => "Unknown Artist" := by
  simp only [get_song_metadata]
  set md0 : Metadata :=
    { id := sid, filename := fn, title := pyStem fn, artist := "Unknown Artist",
      album := "Unknown Album", genre := "Unknown Genre",
      audioSrc := "/uploads/" ++ fn, coverSrc := none } with hmd0
  rcases hs1 : uploadedCoverStep sid cov env.coverSaveOk md0 with ⟨md1, cs1, ws1⟩
  have h1art : md1.artist = "Unknown Artist" := by
    have h := uploadedCoverStep_artist sid cov env.coverSaveOk md0
    rw [hs1] at h
    simpa [hmd0] using h
  have hmain : ∀ md2 : Metadata, md2.artist = (easyTagStep man env.easy md1).artist →
      (finalArtistStep man md2).artist =
        (if optStrTruthy man then man.getD ""
         else
           match env.easy with
           | .ok t =>
             match t.artist with
             | some v => if v = "" then "Unknown Artist" else v
             | none => "Unknown Artist"
           | .noHeader => "Unknown Artist"
           | .err => "Unknown Artist") := by
    intro md2 hart
    rw [finalArtistStep_artist, hart, easyTagStep_artist, h1art]
    cases hman : man with
    | none =>
      simp only [optStrTruthy, if_false]
      cases henv : env.easy with
      | ok t =>
        cases hart2 : t.artist with
        | none => simp [hart2]
        | some v =>
          by_cases hv : v = ""
          · simp [hart2, hv]
          · by_cases hv2 : v = "Unknown Artist"
            · simp [hart2, hv, hv2]
            · simp [hart2, hv, hv2]
      | noHeader => simp
      | err => simp
    | some s =>
      by_cases hs : s = ""
      · simp only [optStrTruthy, hs]
        cases henv : env.easy with
        | ok t =>
          cases hart2 : t.artist with
          | none => simp [hart2]
          | some v =>
            by_cases hv : v = ""
            · simp [hart2, hv]
            · by_cases hv2 : v = "Unknown Artist"
              · simp [hart2, hv, hv2]
              · simp [hart2, hv, hv2]
        | noHeader => simp
        | err => simp
      · have htr : optStrTruthy (some s) = true := by simp [optStrTruthy, hs]
        simp only [htr, if_true, Option.getD_some]
        cases henv : env.easy <;> simp
  simp only [hm, hf, Bool.and_self, if_true]
  by_cases hcs : cs1 = true
  · simp only [hcs, if_true]
    exact hmain _ rfl
  · simp only [hcs, if_false]
    cases hfull : env.full with
    | err => exact hmain _ (by simp)
    | noTags => exact hmain _ (by simp)
    | tags frames =>
      cases hscan : (scanEmbedded frames sid env.embedWriteOk).1 with
      | none => exact hmain _ (by simp [hscan])
      | some c0 => exact hmain _ (by simp [hscan])

theorem c7_artist_resolution_witness :
    (get_song_metadata "a.mp3" "sid" (some "Me") none
        ⟨true, true, .ok ⟨none, some "TagArtist", none, none⟩, .noTags, true, true⟩).1.artist
      = "Me" :=
  (c7_artist_resolution "a.mp3" "sid" (some "Me") none
      ⟨true, true, .ok ⟨none, some "TagArtist", none, none⟩, .noTags, true, true⟩
      rfl rfl).trans (by decide)

/-- C8: every upload request failing validation — missing audio part,
empty audio filename, audio extension outside the allowed set (checked
case-insensitively), or a cover part with a non-empty filename whose
extension is outside the allowed image set — is answered with 400, and no
file is written to the audio or cover directories (the filesystem is
returned unchanged and no library write happens); all four checks run
before the audio file is saved. -/
theorem c8_upload_validation (req : UploadReq) (file : FileState) (fresh : Nat → String)
    (newId : String) (fs : List String) (env : TagEnv) (mOk : Bool)
    (h : req.filePart = none
       ∨ req.filePart = some ""
       ∨ (∃ fn, req.filePart = some fn ∧ allowed_file fn = false)
       ∨ (∃ cfn, req.coverPart = some cfn ∧ cfn ≠ "" ∧ allowed_cover_file cfn = false)) :
    upload_file req file fresh newId fs env mOk = ⟨400, fs, []⟩ := by
  rcases h with h | h | ⟨fn, hfn, hbad⟩ | ⟨cfn, hcp, hne, hbad⟩
  · simp [upload_file, h]
  · simp [upload_file, h]
  · by_cases hempty : fn = ""
    · simp [upload_file, hfn, hempty]
    · simp [upload_file, hfn, hempty, hbad]
  · cases hfp : req.filePart with
    | none => simp [upload_file, hfp]
    | some fn =>
      by_cases hempty : fn = ""
      · simp [upload_file, hfp, hempty]
      · by_cases hok : allowed_file fn = true
        · simp [upload_file, hfp, hempty, hok, hcp, hne, hbad]
        · simp [upload_file, hfp, hempty, hok]

theorem c8_upload_validation_witness :
    upload_file ⟨some "x.txt", "", none⟩ .absent (fun _ => "w") "nid"
        ["/srv/app/uploads/a.mp3"] ⟨true, true, .err, .noTags, true, true⟩ true
      = ⟨400, ["/srv/app/uploads/a.mp3"], []⟩ :=
  c8_upload_validation ⟨some "x.txt", "", none⟩ .absent (fun _ => "w") "nid"
    ["/srv/app/uploads/a.mp3"] ⟨true, true, .err, .noTags, true, true⟩ true
    (Or.inr (Or.inr (Or.inl ⟨"x.txt", rfl, by decide⟩)))
